import Mathlib

/-!
Verification of the registration-time entity hydration and literal
construction helpers of `flytekit/clis/helpers.py`, shallowly embedded in
Lean 4.  Protobuf string fields are Lean `String`s (Python truthiness of a
string is emptiness), the protobuf `ResourceType` enum is a `Nat`
(protobuf enums are open), node and entity messages are sum types, and
Python exceptions become `Except`/`Option` results.
-/

namespace FlytekitHelpers

/-- Enum values of `flyteidl.core.identifier_pb2.ResourceType`. -/
def UNSPECIFIED : Nat := 0

/-- `ResourceType.TASK`. -/
def TASK : Nat := 1

/-- `ResourceType.WORKFLOW`. -/
def WORKFLOW : Nat := 2

/-- `ResourceType.LAUNCH_PLAN`. -/
def LAUNCH_PLAN : Nat := 3

/-- `flyteidl.core.identifier_pb2.Identifier`: a coordinate tuple naming a
registrable entity. -/
structure Identifier where
  resource_type : Nat
  project : String
  domain : String
  name : String
  version : String
deriving DecidableEq, Repr

/-- Python string truthiness used by `a or b` on strings: the left operand
is kept when non-empty, otherwise the right operand is used. -/
def strOr (a b : String) : String :=
  if a = "" then b else a

/-- `_hydrate_identifier(project, domain, version, identifier)`: fills the
`project`/`domain`/`version` fields from the context when they are empty,
via Python `identifier.field or context_field`. -/
def hydrate_identifier (project domain version : String) (identifier : Identifier) :
    Identifier :=
  { identifier with
    project := strOr identifier.project project
    domain := strOr identifier.domain domain
    version := strOr identifier.version version }

/-- Python `str.lower()`: lower-case every character (kernel-reducible,
unlike `String.toLower`). -/
def lowerStr (s : String) : String :=
  String.mk (s.data.map Char.toLower)

/-- `str2bool(str)`: `not str.lower() in ["false", "0", "off", "no"]`. -/
def str2bool (s : String) : Bool :=
  ! (decide (lowerStr s ∈ (["false", "0", "off", "no"] : List String)))

/-- The `oneof reference` of `flyteidl.core.workflow_pb2.WorkflowNode`:
either a launch-plan reference or a sub-workflow reference. -/
inductive WorkflowNodeRef where
  | launchplan_ref (id : Identifier)
  | sub_workflow_ref (id : Identifier)
deriving DecidableEq, Repr

/-- A `flyteidl.core.workflow_pb2.Node`, restricted to the fields the code
inspects via `HasField`: a task node with a `reference_id`, a workflow node
with an optional `oneof` reference, or any other node kind, which the code
never touches (modelled opaquely by a tag). -/
inductive Node where
  | task_node (reference_id : Identifier)
  | workflow_node (ref : Option WorkflowNodeRef)
  | other_node (tag : Nat)
deriving DecidableEq, Repr

/-- The node kind as seen through the `HasField` dispatch of
`_hydrate_workflow_template`. -/
inductive NodeKind where
  | task_node
  | workflow_node
  | other_node
deriving DecidableEq, Repr

/-- Which `HasField` branch a node falls into. -/
def Node.kind : Node → NodeKind
  | .task_node _ => .task_node
  | .workflow_node _ => .workflow_node
  | .other_node _ => .other_node

/-- `flyteidl.core.workflow_pb2.WorkflowTemplate`, restricted to the fields
the code touches: its identifier and its ordered node list. -/
structure WorkflowTemplate where
  id : Identifier
  nodes : List Node
deriving DecidableEq, Repr

/-- The per-node body of the loop in `_hydrate_workflow_template`: hydrate
`task_node.reference_id`, or whichever of `launchplan_ref` /
`sub_workflow_ref` is populated on a workflow node; leave every other node
unchanged. -/
def hydrateNode (project domain version : String) : Node → Node
  | .task_node reference_id =>
      .task_node (hydrate_identifier project domain version reference_id)
  | .workflow_node (some (.launchplan_ref id)) =>
      .workflow_node (some (.launchplan_ref
        (hydrate_identifier project domain version id)))
  | .workflow_node (some (.sub_workflow_ref id)) =>
      .workflow_node (some (.sub_workflow_ref
        (hydrate_identifier project domain version id)))
  | .workflow_node none => .workflow_node none
  | .other_node tag => .other_node tag

/-- `_hydrate_workflow_template(project, domain, version, template)`: walks
`template.nodes` in order, appending each (possibly refreshed) node to the
output list, then reassigns `template.nodes` to the refreshed list. -/
def hydrate_workflow_template (project domain version : String)
    (template : WorkflowTemplate) : WorkflowTemplate :=
  { template with
    nodes := template.nodes.map (hydrateNode project domain version) }

/-- The registrable entity passed to `hydrate_registration_parameters`:
`LaunchPlanSpec` (with a `workflow_id`), `TaskSpec` (with a `template`), or
`WorkflowSpec` (with a `template` and `sub_workflows`).  A `TaskSpec`
template is modelled with the same `WorkflowTemplate` record; only its `id`
field matters to the code. -/
inductive Entity where
  | launch_plan_spec (workflow_id : Identifier)
  | task_spec (template : WorkflowTemplate)
  | workflow_spec (template : WorkflowTemplate)
      (sub_workflows : List WorkflowTemplate)
deriving DecidableEq, Repr

/-- A Python `AttributeError`: the duck-typed code accessed a protobuf
field the given entity message does not have. -/
inductive RegError where
  | attribute_error (field : String)
deriving DecidableEq, Repr

/-- The `template` field of an entity, when the message has one
(`TaskSpec` and `WorkflowSpec` do, `LaunchPlanSpec` does not). -/
def Entity.template : Entity → Option WorkflowTemplate
  | .launch_plan_spec _ => none
  | .task_spec template => some template
  | .workflow_spec template _ => some template

/-- `hydrate_registration_parameters(identifier, project, domain, version,
entity)`: hydrates the top identifier, then dispatches on its
`resource_type`.  `LAUNCH_PLAN` hydrates `entity.workflow_id` and returns;
every other kind first overwrites `entity.template.id` with the hydrated
identifier (`CopyFrom`); `TASK` then returns, and anything that is neither
`LAUNCH_PLAN` nor `TASK` falls through to the workflow branch, which
hydrates every template in `entity.sub_workflows` in order.  Accessing a
field the entity message lacks is an `AttributeError`. -/
def hydrate_registration_parameters (identifier : Identifier)
    (project domain version : String) (entity : Entity) :
    Except RegError (Identifier × Entity) :=
  let identifier := hydrate_identifier project domain version identifier
  if identifier.resource_type = LAUNCH_PLAN then
    match entity with
    | .launch_plan_spec workflow_id =>
        .ok (identifier, .launch_plan_spec
          (hydrate_identifier project domain version workflow_id))
    | _ => .error (.attribute_error "workflow_id")
  else
    match entity with
    | .launch_plan_spec _ => .error (.attribute_error "template")
    | .task_spec template =>
        if identifier.resource_type = TASK then
          .ok (identifier, .task_spec { template with id := identifier })
        else
          .error (.attribute_error "sub_workflows")
    | .workflow_spec template sub_workflows =>
        if identifier.resource_type = TASK then
          .ok (identifier, .workflow_spec { template with id := identifier }
            sub_workflows)
        else
          .ok (identifier, .workflow_spec { template with id := identifier }
            (sub_workflows.map
              (hydrate_workflow_template project domain version)))

/-- `flytekit.models.literals.Literal`: an opaque typed runtime value.  The
helpers never inspect a literal; they only obtain one from the
type-directed parser or from a parameter's stored default, so its internal
structure is irrelevant and modelled by a single tag. -/
structure Literal where
  val : Nat
deriving DecidableEq, Repr

/-- `flytekit.models.interface.Variable`, restricted to the one field the
helpers read: its declared literal type, modelled as an opaque
descriptor. -/
structure Variable where
  type : Nat
deriving DecidableEq, Repr

/-- `flytekit.models.interface.Parameter`: a variable together with the
required flag and the stored default literal. -/
structure Parameter where
  var : Variable
  required : Bool
  default : Literal
deriving DecidableEq, Repr

/-- The Python exception raised by
`construct_literal_map_from_parameter_map`. -/
inductive LiteralMapError where
  | missing_required_parameter (name : String)
deriving DecidableEq, Repr

/-- The Python test `var_name in text_args and text_args[var_name] is not
None`: look a name up in the argument map, yielding its string only when
the key is present with a non-null value. -/
def getArg (text_args : List (String × Option String)) (name : String) :
    Option String :=
  match text_args.lookup name with
  | some (some s) => some s
  | _ => none

/-- `construct_literal_map_from_variable_map(variable_dict, text_args)`:
for each variable, if its name is present in the argument map with a
non-null value, parse the string with the parser resolved from the
variable's declared type; otherwise skip it.  The type-directed parser
(`get_sdk_type_from_literal_type(...).from_string`, defined outside these
sources) is abstracted as the function argument `parse`. -/
def construct_literal_map_from_variable_map (parse : Nat → String → Literal)
    (variable_dict : List (String × Variable))
    (text_args : List (String × Option String)) : List (String × Literal) :=
  variable_dict.foldl
    (fun inputs entry =>
      match getArg text_args entry.1 with
      | some s => inputs ++ [(entry.1, parse entry.2.type s)]
      | none => inputs) []

/-- `construct_literal_map_from_parameter_map(parameter_map, text_args)`:
for every parameter, a required one must be present with a non-null value
(else the Python code raises `Missing required parameter <name>` at that
point, aborting the whole call), an optional one falls back to its stored
default literal; present values are parsed with the abstracted
type-directed parser `parse`. -/
def construct_literal_map_from_parameter_map (parse : Nat → String → Literal)
    (parameter_map : List (String × Parameter))
    (text_args : List (String × Option String)) :
    Except LiteralMapError (List (String × Literal)) :=
  match parameter_map with
  | [] => .ok []
  | (var_name, parameter) :: rest =>
      if parameter.required then
        match getArg text_args var_name with
        | some s =>
            (construct_literal_map_from_parameter_map parse rest text_args).map
              (fun m => (var_name, parse parameter.var.type s) :: m)
        | none => .error (.missing_required_parameter var_name)
      else
        match getArg text_args var_name with
        | some s =>
            (construct_literal_map_from_parameter_map parse rest text_args).map
              (fun m => (var_name, parse parameter.var.type s) :: m)
        | none =>
            (construct_literal_map_from_parameter_map parse rest text_args).map
              (fun m => (var_name, parameter.default) :: m)

/-- Everything before the first `=` of a raw argument string
(`split_arg[0]` of Python's `s.split("=", 1)`). -/
def splitKey (s : String) : String :=
  String.mk (s.data.takeWhile (fun c => c ≠ '='))

/-- Everything after the first `=` of a raw argument string
(`split_arg[1]` of Python's `s.split("=", 1)`); later `=` characters stay
inside the value. -/
def splitVal (s : String) : String :=
  String.mk ((s.data.dropWhile (fun c => c ≠ '=')).drop 1)

/-- Whether a raw argument string contains an `=` at all. -/
def hasEq (s : String) : Bool :=
  s.data.any (fun c => c = '=')

/-- Python `s.split("=", 1)`: split at the first `=` only; a string with no
`=` yields the one-element list `[s]`. -/
def split_first_eq (s : String) : List String :=
  if hasEq s then [splitKey s, splitVal s] else [s]

/-- Python dict assignment `d[k] = v`: replace the value in place when the
key already exists (keeping its original position), else append the
pair. -/
def dictInsert (d : List (String × String)) (k v : String) :
    List (String × String) :=
  if d.any (fun p => p.1 = k) then
    d.map (fun p => if p.1 = k then (k, v) else p)
  else d ++ [(k, v)]

/-- The dict comprehension `{split_arg[0]: split_arg[1] for split_arg in
...}` over an already-split list: each two-element split inserts its key
and value into the accumulated dict; indexing `split_arg[1]` on a split
with fewer than two elements raises `IndexError`, modelled as `none`. -/
def dictComprehension (d : List (String × String)) :
    List (List String) → Option (List (String × String))
  | [] => some d
  | split_arg :: rest =>
      match split_arg with
      | k :: v :: _ => dictComprehension (dictInsert d k v) rest
      | _ => none

/-- `parse_args_into_dict(input_arguments)`: first split every raw
argument at its first `=` (the inner list comprehension), then build the
dict. -/
def parse_args_into_dict (input_arguments : List String) :
    Option (List (String × String)) :=
  dictComprehension [] (input_arguments.map split_first_eq)

end FlytekitHelpers

open FlytekitHelpers

/-- C1: for every context `(project, domain, version)` and every identifier,
`_hydrate_identifier` returns an identifier whose `project` equals the
input's `project` when that is non-empty and the context's `project`
otherwise, likewise for `domain` and `version`, while `name` and
`resource_type` are returned unchanged. -/
theorem hydrate_identifier_fills_only_empty_fields
    (project domain version : String) (id : Identifier) :
    (hydrate_identifier project domain version id).project
        = (if id.project = "" then project else id.project)
      ∧ (hydrate_identifier project domain version id).domain
        = (if id.domain = "" then domain else id.domain)
      ∧ (hydrate_identifier project domain version id).version
        = (if id.version = "" then version else id.version)
      ∧ (hydrate_identifier project domain version id).name = id.name
      ∧ (hydrate_identifier project domain version id).resource_type
        = id.resource_type := by
  refine ⟨?_, ?_, ?_, rfl, rfl⟩ <;> simp [hydrate_identifier, strOr]

/-- C9: identifier hydration is idempotent: hydrating an already-hydrated
identifier with the same context is a no-op. -/
theorem hydrate_identifier_idempotent
    (project domain version : String) (id : Identifier) :
    hydrate_identifier project domain version
        (hydrate_identifier project domain version id)
      = hydrate_identifier project domain version id := by
  simp only [hydrate_identifier, strOr]
  by_cases hp : id.project = "" <;> by_cases hd : id.domain = "" <;>
    by_cases hv : id.version = "" <;>
    simp [hp, hd, hv]

/-- C6: `str2bool` returns `false` iff the lower-cased input is exactly one
of `"false"`, `"0"`, `"off"`, `"no"`; every other string, including the
empty string, parses to `true`. -/
theorem str2bool_false_iff (s : String) :
    (str2bool s = false
      ↔ (lowerStr s = "false" ∨ lowerStr s = "0"
          ∨ lowerStr s = "off" ∨ lowerStr s = "no"))
      ∧ str2bool "" = true := by
  constructor
  · simp only [str2bool]
    simp
    tauto
  · decide

/-- C4: template hydration returns a node sequence of the same length, in
the same order, with the same node kind at every index; only the reference
identifiers inside task-reference and workflow-reference nodes change, and
every node of any other kind is returned unmodified. -/
theorem hydrate_workflow_template_preserves_structure
    (project domain version : String) (template : WorkflowTemplate) :
    (hydrate_workflow_template project domain version template).nodes.length
        = template.nodes.length
      ∧ (∀ i : Nat,
          (hydrate_workflow_template project domain version template).nodes[i]?
            = (template.nodes[i]?).map (hydrateNode project domain version))
      ∧ (∀ n : Node, (hydrateNode project domain version n).kind = n.kind)
      ∧ (∀ tag : Nat,
          hydrateNode project domain version (.other_node tag)
            = .other_node tag)
      ∧ (∀ ref : Option WorkflowNodeRef,
          hydrateNode project domain version (.workflow_node ref)
            = .workflow_node (ref.map (fun r =>
                match r with
                | .launchplan_ref id => .launchplan_ref
                    (hydrate_identifier project domain version id)
                | .sub_workflow_ref id => .sub_workflow_ref
                    (hydrate_identifier project domain version id))))
      ∧ (∀ reference_id : Identifier,
          hydrateNode project domain version (.task_node reference_id)
            = .task_node
                (hydrate_identifier project domain version reference_id)) := by
  refine ⟨?_, ?_, ?_, fun _ => rfl, ?_, fun _ => rfl⟩
  · simp [hydrate_workflow_template]
  · intro i
    simp [hydrate_workflow_template]
  · intro n
    cases n with
    | task_node rid => rfl
    | workflow_node ref =>
        cases ref with
        | none => rfl
        | some r => cases r <;> rfl
    | other_node tag => rfl
  · intro ref
    cases ref with
    | none => rfl
    | some r => cases r <;> rfl

/-- C3: for a top identifier of kind `TASK` or `WORKFLOW`, whenever
registration parameter resolution returns a result, the entity's
`template.id` equals the hydrated top identifier exactly — a full
overwrite of every field, regardless of what the entity's own template id
previously held. -/
theorem hydrate_registration_overwrites_template_id
    (project domain version : String) (id : Identifier) (entity : Entity)
    (res : Identifier × Entity)
    (hkind : id.resource_type = TASK ∨ id.resource_type = WORKFLOW)
    (hok : hydrate_registration_parameters id project domain version entity
      = .ok res) :
    ∃ t, res.2.template = some t
      ∧ t.id = hydrate_identifier project domain version id := by
  have hrt : (hydrate_identifier project domain version id).resource_type
      = id.resource_type := rfl
  have hlp : (hydrate_identifier project domain version id).resource_type
      ≠ LAUNCH_PLAN := by
    rw [hrt]
    rcases hkind with h | h <;> rw [h] <;> decide
  unfold hydrate_registration_parameters at hok
  rw [if_neg hlp] at hok
  cases entity with
  | launch_plan_spec workflow_id => simp at hok
  | task_spec template =>
      simp only at hok
      by_cases ht : (hydrate_identifier project domain version id).resource_type
          = TASK
      · rw [if_pos ht] at hok
        cases hok
        exact ⟨_, rfl, rfl⟩
      · rw [if_neg ht] at hok
        simp at hok
  | workflow_spec template sub_workflows =>
      simp only at hok
      by_cases ht : (hydrate_identifier project domain version id).resource_type
          = TASK
      · rw [if_pos ht] at hok
        cases hok
        exact ⟨_, rfl, rfl⟩
      · rw [if_neg ht] at hok
        cases hok
        exact ⟨_, rfl, rfl⟩

/-- Witness for C3 at a concrete input: a `TASK` identifier and a task
entity whose template id previously held non-empty fields
`("P0", "D0", "old", "V0")`; after resolution the template id is the
hydrated top identifier, not a merge. -/
theorem hydrate_registration_overwrites_template_id_witness :
    ∃ t, ((⟨TASK, "p", "d", "n", "v"⟩,
            Entity.task_spec ⟨⟨TASK, "p", "d", "n", "v"⟩, []⟩)
          : Identifier × Entity).2.template = some t
      ∧ t.id = hydrate_identifier "p" "d" "v" ⟨TASK, "", "", "n", ""⟩ :=
  hydrate_registration_overwrites_template_id "p" "d" "v"
    ⟨TASK, "", "", "n", ""⟩
    (.task_spec ⟨⟨TASK, "P0", "D0", "old", "V0"⟩, []⟩)
    (⟨TASK, "p", "d", "n", "v"⟩,
      .task_spec ⟨⟨TASK, "p", "d", "n", "v"⟩, []⟩)
    (Or.inl rfl) rfl

/-- C2 counterexample: at the unrecognized resource kind `UNSPECIFIED`
(value 0, neither `LAUNCH_PLAN`, `TASK`, nor `WORKFLOW`),
`hydrate_registration_parameters` does not fail: it returns a hydrated
result, treating the call exactly like the `WORKFLOW` branch. -/
theorem hydrate_registration_unrecognized_kind_returns_result :
    hydrate_registration_parameters ⟨UNSPECIFIED, "", "", "n", ""⟩ "p" "d" "v"
        (.workflow_spec ⟨⟨UNSPECIFIED, "tp", "td", "tn", "tv"⟩, []⟩ [])
      = .ok (⟨UNSPECIFIED, "p", "d", "n", "v"⟩,
          .workflow_spec ⟨⟨UNSPECIFIED, "p", "d", "n", "v"⟩, []⟩ []) := rfl

/-- C2 amended: for every identifier whose resource kind is neither
`LAUNCH_PLAN` nor `TASK` (including every unrecognized kind), registration
parameter resolution falls through to the workflow branch: with a
workflow-shaped entity it returns a hydrated result whose `template.id` is
overwritten by the hydrated identifier and whose sub-workflow templates
are hydrated in order; no error is raised for unrecognized kinds. -/
theorem hydrate_registration_non_lp_non_task_falls_through
    (project domain version : String) (id : Identifier)
    (template : WorkflowTemplate) (sub_workflows : List WorkflowTemplate)
    (hlp : id.resource_type ≠ LAUNCH_PLAN)
    (htask : id.resource_type ≠ TASK) :
    hydrate_registration_parameters id project domain version
        (.workflow_spec template sub_workflows)
      = .ok (hydrate_identifier project domain version id,
          .workflow_spec
            { template with id := hydrate_identifier project domain version id }
            (sub_workflows.map
              (hydrate_workflow_template project domain version))) := by
  have hrt : (hydrate_identifier project domain version id).resource_type
      = id.resource_type := rfl
  unfold hydrate_registration_parameters
  rw [if_neg (hrt ▸ hlp)]
  simp only
  rw [if_neg (hrt ▸ htask)]

/-- Witness for the amended C2 at a concrete input: resource kind
`UNSPECIFIED` with a workflow-shaped entity. -/
theorem hydrate_registration_non_lp_non_task_falls_through_witness :
    hydrate_registration_parameters ⟨UNSPECIFIED, "", "", "n", ""⟩ "p" "d" "v"
        (.workflow_spec ⟨⟨UNSPECIFIED, "tp", "td", "tn", "tv"⟩,
            [.other_node 7]⟩ [])
      = .ok (⟨UNSPECIFIED, "p", "d", "n", "v"⟩,
          .workflow_spec ⟨⟨UNSPECIFIED, "p", "d", "n", "v"⟩,
            [.other_node 7]⟩ []) :=
  hydrate_registration_non_lp_non_task_falls_through "p" "d" "v"
    ⟨UNSPECIFIED, "", "", "n", ""⟩
    ⟨⟨UNSPECIFIED, "tp", "td", "tn", "tv"⟩, [.other_node 7]⟩ []
    (by decide) (by decide)

/-- The loop of `construct_literal_map_from_variable_map` collects, in
schema order, exactly the entries whose name is supplied with a non-null
value. -/
theorem construct_literal_map_from_variable_map_eq_filterMap
    (parse : Nat → String → Literal)
    (variable_dict : List (String × Variable))
    (text_args : List (String × Option String)) :
    construct_literal_map_from_variable_map parse variable_dict text_args
      = variable_dict.filterMap (fun entry =>
          (getArg text_args entry.1).map
            (fun s => (entry.1, parse entry.2.type s))) := by
  suffices h : ∀ acc : List (String × Literal),
      variable_dict.foldl
        (fun inputs entry =>
          match getArg text_args entry.1 with
          | some s => inputs ++ [(entry.1, parse entry.2.type s)]
          | none => inputs) acc
      = acc ++ variable_dict.filterMap (fun entry =>
          (getArg text_args entry.1).map
            (fun s => (entry.1, parse entry.2.type s))) by
    simpa [construct_literal_map_from_variable_map] using h []
  induction variable_dict with
  | nil => intro acc; simp
  | cons hd tl ih =>
      intro acc
      cases hg : getArg text_args hd.1 with
      | none => simp [List.foldl_cons, hg, ih, List.filterMap_cons]
      | some s => simp [List.foldl_cons, hg, ih, List.filterMap_cons]

/-- C7: plain-schema literal construction keeps, in order, exactly the
schema names present in the argument map with a non-null value, each
parsed through the type-directed parser for its declared type; absent or
null names are omitted with no error and no default, so the keys are a
sub-list of the schema's names. -/
theorem construct_literal_map_from_variable_map_keys
    (parse : Nat → String → Literal)
    (variable_dict : List (String × Variable))
    (text_args : List (String × Option String)) :
    (construct_literal_map_from_variable_map parse variable_dict
          text_args).map Prod.fst
        = (variable_dict.map Prod.fst).filter
            (fun n => (getArg text_args n).isSome)
      ∧ construct_literal_map_from_variable_map parse variable_dict text_args
        = variable_dict.filterMap (fun entry =>
            (getArg text_args entry.1).map
              (fun s => (entry.1, parse entry.2.type s))) := by
  refine ⟨?_, construct_literal_map_from_variable_map_eq_filterMap _ _ _⟩
  rw [construct_literal_map_from_variable_map_eq_filterMap]
  induction variable_dict with
  | nil => simp
  | cons hd tl ih =>
      cases hg : getArg text_args hd.1 with
      | none => simp [List.filterMap_cons, hg, ih, List.filter_cons]
      | some s => simp [List.filterMap_cons, hg, ih, List.filter_cons]

/-- C5: parameter-based literal construction either succeeds with exactly
one entry per schema parameter, in schema order — parsing the supplied
string when the name is present with a non-null value and falling back to
the stored default literal (not re-parsed) otherwise, every required
parameter being supplied — or fails with a `missing_required_parameter`
error naming a required parameter that is absent or null, and then no
partial map is returned. -/
theorem construct_literal_map_from_parameter_map_spec
    (parse : Nat → String → Literal)
    (parameter_map : List (String × Parameter))
    (text_args : List (String × Option String)) :
    (construct_literal_map_from_parameter_map parse parameter_map text_args
          = .ok (parameter_map.map (fun entry =>
              (entry.1,
                match getArg text_args entry.1 with
                | some s => parse entry.2.var.type s
                | none => entry.2.default)))
        ∧ ∀ entry ∈ parameter_map, entry.2.required = true →
            (getArg text_args entry.1).isSome = true)
      ∨ (∃ name parameter,
          construct_literal_map_from_parameter_map parse parameter_map
              text_args
            = .error (.missing_required_parameter name)
          ∧ (name, parameter) ∈ parameter_map
          ∧ parameter.required = true
          ∧ getArg text_args name = none) := by
  induction parameter_map with
  | nil => left; exact ⟨rfl, by simp⟩
  | cons hd tl ih =>
      obtain ⟨var_name, parameter⟩ := hd
      by_cases hreq : parameter.required
      · cases hg : getArg text_args var_name with
        | none =>
            right
            refine ⟨var_name, parameter, ?_, List.mem_cons_self _ _, hreq, hg⟩
            simp [construct_literal_map_from_parameter_map, hreq, hg]
        | some s =>
            rcases ih with ⟨hok, hall⟩ | ⟨name, p, herr, hmem, hp, hgn⟩
            · left
              constructor
              · simp [construct_literal_map_from_parameter_map, hreq, hg, hok, Except.map]
              · intro entry hentry hr
                rcases List.mem_cons.mp hentry with rfl | hentry
                · simp [hg]
                · exact hall entry hentry hr
            · right
              refine ⟨name, p, ?_, List.mem_cons_of_mem _ hmem, hp, hgn⟩
              simp [construct_literal_map_from_parameter_map, hreq, hg, herr, Except.map]
      · cases hg : getArg text_args var_name with
        | none =>
            rcases ih with ⟨hok, hall⟩ | ⟨name, p, herr, hmem, hp, hgn⟩
            · left
              constructor
              · simp [construct_literal_map_from_parameter_map, hreq, hg, hok, Except.map]
              · intro entry hentry hr
                rcases List.mem_cons.mp hentry with rfl | hentry
                · simp at hr
                  exact absurd hr hreq
                · exact hall entry hentry hr
            · right
              refine ⟨name, p, ?_, List.mem_cons_of_mem _ hmem, hp, hgn⟩
              simp [construct_literal_map_from_parameter_map, hreq, hg, herr, Except.map]
        | some s =>
            rcases ih with ⟨hok, hall⟩ | ⟨name, p, herr, hmem, hp, hgn⟩
            · left
              constructor
              · simp [construct_literal_map_from_parameter_map, hreq, hg, hok, Except.map]
              · intro entry hentry hr
                rcases List.mem_cons.mp hentry with rfl | hentry
                · simp [hg]
                · exact hall entry hentry hr
            · right
              refine ⟨name, p, ?_, List.mem_cons_of_mem _ hmem, hp, hgn⟩
              simp [construct_literal_map_from_parameter_map, hreq, hg, herr, Except.map]

/-- Looking up through a position-preserving dict replacement. -/
theorem lookup_map_replace (d : List (String × String)) (k v k' : String) :
    (d.map (fun p => if p.1 = k then (k, v) else p)).lookup k'
      = if k' = k then
          (if d.any (fun p => p.1 = k) then some v else none)
        else d.lookup k' := by
  induction d with
  | nil => simp [List.lookup]
  | cons a d ih =>
      obtain ⟨a1, a2⟩ := a
      rw [List.map_cons]
      by_cases hak : a1 = k
      · rw [if_pos hak, List.lookup_cons, List.lookup_cons]
        by_cases hk : k' = k
        · simp only [beq_iff_eq.mpr hk]
          rw [if_pos hk, List.any_cons]
          simp [hak]
        · have hka : k' ≠ a1 := fun hc => hk (hc.trans hak)
          simp only [beq_eq_false_iff_ne.mpr hk, beq_eq_false_iff_ne.mpr hka]
          rw [ih]
          simp [hk]
      · rw [if_neg hak, List.lookup_cons, List.lookup_cons]
        by_cases hka : k' = a1
        · have hk : k' ≠ k := fun hc => hak (hka.symm.trans hc)
          simp [beq_iff_eq.mpr hka, hk]
        · simp only [beq_eq_false_iff_ne.mpr hka]
          rw [ih, List.any_cons]
          by_cases hk : k' = k
          · have hdec : (decide (a1 = k)) = false :=
              decide_eq_false_iff_not.mpr hak
            rw [hdec, Bool.false_or]
          · simp [hk]

/-- Python dict assignment, observed through lookup: the assigned key now
maps to the new value and every other key is untouched. -/
theorem lookup_dictInsert (d : List (String × String)) (k v k' : String) :
    (dictInsert d k v).lookup k' = if k' = k then some v else d.lookup k' := by
  unfold dictInsert
  by_cases hmem : d.any (fun p => p.1 = k)
  · rw [if_pos hmem, lookup_map_replace, hmem]
    simp
  · rw [if_neg hmem]
    induction d with
    | nil =>
        rw [List.nil_append, List.lookup_cons]
        by_cases hk : k' = k
        · simp [beq_iff_eq.mpr hk, hk]
        · simp [beq_eq_false_iff_ne.mpr hk, hk, List.lookup]
    | cons a d ih =>
        have hak : ¬ a.1 = k := by
          intro hc
          exact hmem (by simp [List.any_cons, hc])
        have hmem2 : ¬ d.any (fun p => p.1 = k) = true := by
          intro hc
          exact hmem (by simp [List.any_cons, hc])
        rw [List.cons_append, List.lookup_cons, List.lookup_cons]
        by_cases hka : k' = a.1
        · have hk : k' ≠ k := fun hc => hak (hka.symm.trans hc)
          simp [beq_iff_eq.mpr hka, if_neg hk]
        · simp [beq_eq_false_iff_ne.mpr hka, ih hmem2]

/-- The dict comprehension over a concatenation runs its left part
first. -/
theorem dictComprehension_append (l1 l2 : List (List String)) :
    ∀ d, dictComprehension d (l1 ++ l2)
      = (dictComprehension d l1).bind
          (fun d0 => dictComprehension d0 l2) := by
  induction l1 with
  | nil => intro d; rfl
  | cons s l1 ih =>
      intro d
      cases s with
      | nil => rfl
      | cons k rest =>
          cases rest with
          | nil => rfl
          | cons v rest2 => exact ih (dictInsert d k v)

/-- C8: the argument splitter cuts each entry at the first `=` only (so
`"a=b=c"` yields key `"a"` and value `"b=c"`), and when the same key occurs
in several entries the mapping holds the value of the last one: looking a
key up in the resulting dict returns the value part of the last entry
whose key part matches. -/
theorem parse_args_into_dict_splits_first_and_last_wins
    (input_arguments : List String) (d : List (String × String))
    (h : parse_args_into_dict input_arguments = some d) :
    (∀ k : String, d.lookup k
        = (input_arguments.reverse.find?
            (fun s => splitKey s == k)).map splitVal)
      ∧ parse_args_into_dict ["a=b=c"] = some [("a", "b=c")] := by
  refine ⟨?_, rfl⟩
  induction input_arguments using List.reverseRecOn generalizing d with
  | nil =>
      have hd : ([] : List (String × String)) = d := by
        simpa [parse_args_into_dict, dictComprehension] using h
      subst hd
      simp [List.lookup]
  | append_singleton xs x ih =>
      rw [parse_args_into_dict, List.map_append, List.map_cons, List.map_nil,
        dictComprehension_append] at h
      cases hxs : dictComprehension [] (xs.map split_first_eq) with
      | none =>
          rw [hxs] at h
          exact Option.noConfusion h
      | some d0 =>
          rw [hxs] at h
          replace h : dictComprehension d0 [split_first_eq x] = some d := h
          by_cases hx : hasEq x
          · simp only [split_first_eq, if_pos hx] at h
            replace h : some (dictInsert d0 (splitKey x) (splitVal x))
                = some d := h
            rw [Option.some.injEq] at h
            subst h
            intro k
            rw [lookup_dictInsert, List.reverse_append]
            simp only [List.reverse_cons, List.reverse_nil, List.nil_append,
              List.singleton_append, List.find?_cons]
            by_cases hk : k = splitKey x
            · rw [if_pos hk]
              simp [beq_iff_eq.mpr hk.symm]
            · rw [if_neg hk]
              have hbeq : (splitKey x == k) = false :=
                beq_eq_false_iff_ne.mpr (fun hc => hk hc.symm)
              simp only [hbeq]
              exact ih d0 hxs k
          · simp only [split_first_eq, if_neg hx] at h
            exact Option.noConfusion h

/-- Dict construction from split arguments fails exactly when some raw
argument has no `=`, whatever dict has been accumulated so far. -/
theorem dictComprehension_none_iff (input_arguments : List String) :
    ∀ d : List (String × String),
      dictComprehension d (input_arguments.map split_first_eq) = none
        ↔ ∃ s ∈ input_arguments, hasEq s = false := by
  induction input_arguments with
  | nil => intro d; simp [dictComprehension]
  | cons a args ih =>
      intro d
      rw [List.map_cons]
      by_cases ha : hasEq a
      · have hstep : dictComprehension d
            (split_first_eq a :: args.map split_first_eq)
            = dictComprehension (dictInsert d (splitKey a) (splitVal a))
                (args.map split_first_eq) := by
          simp only [split_first_eq, if_pos ha]
          rfl
        rw [hstep, ih]
        constructor
        · rintro ⟨s, hs, hfalse⟩
          exact ⟨s, List.mem_cons_of_mem _ hs, hfalse⟩
        · rintro ⟨s, hs, hfalse⟩
          rcases List.mem_cons.mp hs with rfl | hs
          · rw [ha] at hfalse
            cases hfalse
          · exact ⟨s, hs, hfalse⟩
      · have hstep : dictComprehension d
            (split_first_eq a :: args.map split_first_eq) = none := by
          simp only [split_first_eq, if_neg ha]
          rfl
        rw [hstep]
        simp only [Bool.not_eq_true] at ha
        exact iff_of_true rfl ⟨a, List.mem_cons_self a args, ha⟩

/-- C10: `parse_args_into_dict` is partial: it fails (the Python
`IndexError` from `split_arg[1]`) exactly when some entry contains no `=`
character, so it is total precisely under the precondition that every
entry contains at least one `=`. -/
theorem parse_args_into_dict_none_iff (input_arguments : List String) :
    parse_args_into_dict input_arguments = none
      ↔ ∃ s ∈ input_arguments, hasEq s = false :=
  dictComprehension_none_iff input_arguments []

/-- Witness for C8 at a concrete input: in `["a=b=c", "x=1", "x=2"]` the
entry `"a=b=c"` splits at the first `=` and the key `"x"` ends at the
value of its last entry. -/
theorem parse_args_into_dict_splits_first_and_last_wins_witness :
    ([("a", "b=c"), ("x", "2")] : List (String × String)).lookup "x"
      = ((["a=b=c", "x=1", "x=2"] : List String).reverse.find?
          (fun s => splitKey s == "x")).map splitVal :=
  (parse_args_into_dict_splits_first_and_last_wins ["a=b=c", "x=1", "x=2"]
    [("a", "b=c"), ("x", "2")] rfl).1 "x"
